import Mathlib

/-!
movieApi.js : catalog adapter, query orchestrator and HTTP client.

A shallow embedding of `src/js/movieApi.js`.

* JavaScript strings are sequences of UTF-16 code units (`JsString`), so that
  `slice`, `trim` and `includes` count exactly what the source counts.
* JavaScript numbers that are counts, page numbers and identifiers are `Int`.
  `popularLoop` computes on them exactly; `popularLoopDouble` is the same loop
  with every sum and difference rounded to the nearest double, and the two
  agree where the numbers are exact (`popularLoopDouble_eq_popularLoop`).
* The network is a function giving the outcome of the `n`-th request issued
  (`Upstream`); every function that talks to the network returns, next to its
  result, the list of requests it issued (`Run`).
* A thrown exception / rejected promise is the `error` side of `Except`.
-/

namespace MovieApi

/-! ## Strings -/

/-- A JavaScript string: its UTF-16 code units. -/
abbrev JsString := List Nat

/-- The code units of a source literal (all literals of the file are ASCII). -/
def js (s : String) : JsString := s.toList.map Char.toNat

/-- Truthiness of a possibly absent (`undefined` / `null`) string. -/
def truthyStr : Option JsString → Bool
  | some (_ :: _) => true
  | _ => false

/-- The source's `a || b` where `a` is a possibly absent string and `b` a string. -/
def strOr (a : Option JsString) (b : JsString) : JsString :=
  match a with
  | some (c :: cs) => c :: cs
  | _ => b

/-- The source's `xs.slice(0, end)` on an array or a string: a negative `end`
counts from the back. -/
def jsSliceTo {α : Type} (xs : List α) (stop : Int) : List α :=
  if stop < 0 then xs.take ((xs.length : Int) + stop).toNat else xs.take stop.toNat

/-- The code units removed by `String.prototype.trim`: WhiteSpace and
LineTerminator of ECMAScript. -/
def isJsWhitespace (c : Nat) : Bool :=
  c == 0x09 || c == 0x0A || c == 0x0B || c == 0x0C || c == 0x0D || c == 0x20 ||
  c == 0xA0 || c == 0x1680 || (0x2000 ≤ c && c ≤ 0x200A) || c == 0x2028 ||
  c == 0x2029 || c == 0x202F || c == 0x205F || c == 0x3000 || c == 0xFEFF

/-- The source's `s.trim()`. -/
def jsTrim (s : JsString) : JsString :=
  ((s.dropWhile isJsWhitespace).reverse.dropWhile isJsWhitespace).reverse

/-- The source's `s.includes(pat)`. -/
def jsIncludes (s pat : JsString) : Bool :=
  s.tails.any (fun t => pat.isPrefixOf t)

/-- A decimal digit `0`..`9` as a code unit. -/
def isDigit (c : Nat) : Bool := 0x30 ≤ c && c ≤ 0x39

/-! ## Data model -/

/-- The `id` of a raw catalog record: absent, `null`, or a number. -/
inductive RawId
  | absent
  | null
  | num (n : Int)
deriving DecidableEq

/-- A raw catalog record as the catalog API documents it. `none` stands for a
field that is absent or `null`. -/
structure TmdbRaw where
  id : RawId
  title : Option JsString
  name : Option JsString
  release_date : Option JsString
  first_air_date : Option JsString
  poster_path : Option JsString
  backdrop_path : Option JsString
  vote_average : Option Rat
  vote_count : Option Int
  overview : Option JsString
deriving DecidableEq

/-- The normalized movie record built by `mapTmdbToMovie`. `poster` and
`avgRating` are `none` when the source stores `null`. -/
structure Movie where
  id : JsString
  title : JsString
  year : JsString
  poster : Option JsString
  avgRating : Option Rat
  ratingCount : Int
  description : JsString
deriving DecidableEq

/-- `TMDB.imageBase`. -/
def imageBase : JsString := js "https://image.tmdb.org/t/p"

/-- `tmdbGetImageUrl(path, size)`: `null` for a falsy path, otherwise
`imageBase/size` followed by the path. -/
def tmdbGetImageUrl (path : Option JsString) (size : JsString) : Option JsString :=
  match path with
  | some (c :: cs) => some (imageBase ++ js "/" ++ size ++ (c :: cs))
  | _ => none

/-- The text a template literal gives for `tmdb.id`. -/
def idText : RawId → JsString
  | RawId.num n => js (toString n)
  | RawId.null => js "null"
  | RawId.absent => js "undefined"

/-- The source's `mapTmdbToMovie`. -/
def mapTmdbToMovie (tmdb : TmdbRaw) : Movie :=
  { id := js "tmdb_" ++ idText tmdb.id
    title := strOr tmdb.title (strOr tmdb.name [])
    year := jsSliceTo (strOr tmdb.release_date (strOr tmdb.first_air_date [])) 4
    poster :=
      if truthyStr tmdb.poster_path then tmdbGetImageUrl tmdb.poster_path (js "w342")
      else if truthyStr tmdb.backdrop_path then tmdbGetImageUrl tmdb.backdrop_path (js "w780")
      else none
    avgRating :=
      match tmdb.vote_average with
      | some v => if v = 0 then none else some v
      | none => none
    ratingCount :=
      match tmdb.vote_count with
      | some n => n
      | none => 0
    description := strOr tmdb.overview [] }

/-! ## Result objects -/

/-- The values stored in the objects the adapter returns: `undefined`, a number,
or an array of movies. -/
inductive Val
  | undefined
  | num (n : Int)
  | arr (ms : List Movie)
deriving DecidableEq

/-- An object literal: its fields in the order written. -/
abbrev Obj := List (String × Val)

/-- Property access `o.k`: `undefined` when the object has no such field. -/
def getField (o : Obj) (k : String) : Val :=
  match o.lookup k with
  | some v => v
  | none => Val.undefined

/-- The names of the fields of an object. -/
def fieldNames (o : Obj) : List String := o.map Prod.fst

/-- JavaScript truthiness. -/
def Val.truthy : Val → Bool
  | Val.undefined => false
  | Val.num n => n != 0
  | Val.arr _ => true

/-- The source's `a || b`. -/
def Val.orElse (a b : Val) : Val := if a.truthy then a else b

/-- A possibly absent number read from a JSON body. -/
def optNum : Option Int → Val
  | some n => Val.num n
  | none => Val.undefined

/-! ## The network -/

/-- A query parameter value. -/
inductive Param
  | num (n : Int)
  | str (s : JsString)
  | bool (b : Bool)
deriving DecidableEq

/-- What `tmdbFetch(path, params)` asks of the catalog. The URL and the
`Authorization` header are determined by these and the configured key. -/
structure Request where
  path : String
  params : List (String × Param)
deriving DecidableEq

/-- An HTTP response as the source reads it: `status`, the `content-type`
header, what `text()` resolves to and what `json()` resolves to (`none` when
`json()` rejects because the body is not JSON). -/
structure Response (J : Type) where
  status : Nat
  contentType : Option JsString
  text : JsString
  json : Option J

/-- The platform's `res.ok`: the status is in the range 200..299. -/
def Response.ok {J : Type} (r : Response J) : Bool := 200 ≤ r.status && r.status ≤ 299

/-- The outcome of the platform's `fetch`: the promise rejects, or resolves to
a response. -/
inductive FetchOutcome (J : Type)
  | rejected
  | response (r : Response J)

/-- The JSON body of a catalog list endpoint. -/
structure TmdbData where
  results : Option (List TmdbRaw)
  page : Option Int
  total_results : Option Int
  total_pages : Option Int
deriving DecidableEq

/-- What the source can throw on the catalog side. -/
inductive Thrown
  | transport
  | requestFailed (status : Nat) (body : JsString)
  | jsonRejected
deriving DecidableEq

/-- The catalog seen from the client: the outcome of the `n`-th request issued. -/
abbrev Upstream := Nat → Request → FetchOutcome TmdbData

/-- A finished asynchronous call: what it resolved or rejected with, and the
upstream requests it issued, in order. -/
structure Run (α : Type) where
  result : Except Thrown α
  requests : List Request

/-- The source's `tmdbFetch`, issued as request number `tick`. -/
def tmdbFetch (up : Upstream) (tick : Nat) (req : Request) : Except Thrown TmdbData :=
  match up tick req with
  | FetchOutcome.rejected => Except.error Thrown.transport
  | FetchOutcome.response res =>
    if !res.ok then Except.error (Thrown.requestFailed res.status res.text)
    else
      match res.json with
      | some data => Except.ok data
      | none => Except.error Thrown.jsonRejected

/-- The request `tmdbFetch('/search/movie', { query, page, include_adult: false })`. -/
def searchRequest (query : JsString) (page : Int) : Request :=
  { path := "/search/movie"
    params := [("query", Param.str query), ("page", Param.num page),
               ("include_adult", Param.bool false)] }

/-- The request `tmdbFetch('/movie/popular', { page })`. -/
def popularRequest (page : Int) : Request :=
  { path := "/movie/popular", params := [("page", Param.num page)] }

/-- The request `tmdbFetch('/movie/top_rated', { page })`. -/
def topRatedRequest (page : Int) : Request :=
  { path := "/movie/top_rated", params := [("page", Param.num page)] }

/-- The source's `(data.results || []).map(mapTmdbToMovie)`. -/
def normalizedResults (data : TmdbData) : List Movie :=
  (match data.results with
   | some rs => rs
   | none => []).map mapTmdbToMovie

/-! ## Catalog adapter -/

/-- The source's `tmdbSearchMovies(query, { page })`. -/
def tmdbSearchMovies (up : Upstream) (tick : Nat) (query : JsString) (page : Int) : Run Obj :=
  if query = [] then
    { result := Except.ok [("results", Val.arr []), ("page", Val.num 1),
                           ("total_results", Val.num 0), ("total_pages", Val.num 0)]
      requests := [] }
  else
    match tmdbFetch up tick (searchRequest query page) with
    | Except.error e => { result := Except.error e, requests := [searchRequest query page] }
    | Except.ok data =>
      { result := Except.ok [("movies", Val.arr (normalizedResults data)),
                             ("page", optNum data.page),
                             ("total", optNum data.total_results),
                             ("totalPages", optNum data.total_pages)]
        requests := [searchRequest query page] }

/-- The `while` loop of `tmdbGetPopular`, entered with the loop variables
`currentPage`, `remaining`, `movies`; `tick` numbers the next request and `log`
holds the requests issued so far. The arithmetic is exact, which is what the
source computes as long as `currentPage >= -2^53` and `remaining <= 2^53`. -/
def popularLoop (up : Upstream) (tick : Nat) (currentPage remaining : Int)
    (movies : List Movie) (log : List Request) : Run (List Movie) :=
  if _h : remaining > 0 ∧ currentPage ≤ 500 then
    match tmdbFetch up tick (popularRequest currentPage) with
    | Except.error e =>
      { result := Except.error e, requests := log ++ [popularRequest currentPage] }
    | Except.ok data =>
      let pageMovies := normalizedResults data
      let toTake := min remaining (pageMovies.length : Int)
      if pageMovies.length < 20 then
        { result := Except.ok (movies ++ jsSliceTo pageMovies toTake)
          requests := log ++ [popularRequest currentPage] }
      else
        popularLoop up (tick + 1) (currentPage + 1) (remaining - toTake)
          (movies ++ jsSliceTo pageMovies toTake) (log ++ [popularRequest currentPage])
  else
    { result := Except.ok movies, requests := log }
termination_by (501 - currentPage).toNat
decreasing_by omega

/-- The source's `tmdbGetPopular({ page, limit })`; a caller that leaves an
argument out passes the default (`page = 1`, `limit = 20`). -/
def tmdbGetPopular (up : Upstream) (tick : Nat) (page limit : Int) : Run Obj :=
  let r := popularLoop up tick page limit [] []
  { result :=
      match r.result with
      | Except.ok movies =>
        Except.ok [("movies", Val.arr movies), ("page", Val.num page),
                   ("total", Val.num (movies.length : Int))]
      | Except.error e => Except.error e
    requests := r.requests }

/-- The exponent `e` of the spacing `2 ^ e` between neighbouring doubles of
magnitude `a`: the least `e` with `a < 2 ^ (53 + e)`, searched upward from `e`. -/
def spacingExp (a : Nat) : Nat → Nat → Nat
  | 0, e => e
  | fuel + 1, e => if a < 2 ^ (53 + e) then e else spacingExp a fuel (e + 1)

/-- The double nearest to the integer `n` (53 significant bits, ties to the even
significand): what an addition or subtraction whose exact result is `n`
yields. The loop never leaves the finite range, so overflow is not modelled. -/
def roundDouble (n : Int) : Int :=
  let a := n.natAbs
  let e := spacingExp a 1024 0
  let q := a / 2 ^ e
  let r := a % 2 ^ e
  let m := (if 2 ^ e < 2 * r ∨ (2 * r = 2 ^ e ∧ q % 2 = 1) then q + 1 else q) * 2 ^ e
  if n < 0 then -(m : Int) else (m : Int)

/-- The `while` loop of `tmdbGetPopular` in double precision: `currentPage++`
and `remaining -= toTake` are rounded to the nearest double. At most `fuel`
iterations are run; `none` means the loop has not finished within them. -/
def popularLoopDouble (up : Upstream) : Nat → Nat → Int → Int → List Movie → List Request →
    Option (Run (List Movie))
  | 0, _, currentPage, remaining, movies, log =>
    if remaining > 0 ∧ currentPage ≤ 500 then none
    else some { result := Except.ok movies, requests := log }
  | fuel + 1, tick, currentPage, remaining, movies, log =>
    if remaining > 0 ∧ currentPage ≤ 500 then
      match tmdbFetch up tick (popularRequest currentPage) with
      | Except.error e =>
        some { result := Except.error e, requests := log ++ [popularRequest currentPage] }
      | Except.ok data =>
        let pageMovies := normalizedResults data
        let toTake := min remaining (pageMovies.length : Int)
        if pageMovies.length < 20 then
          some { result := Except.ok (movies ++ jsSliceTo pageMovies toTake)
                 requests := log ++ [popularRequest currentPage] }
        else
          popularLoopDouble up fuel (tick + 1) (roundDouble (currentPage + 1))
            (roundDouble (remaining - toTake)) (movies ++ jsSliceTo pageMovies toTake)
            (log ++ [popularRequest currentPage])
    else some { result := Except.ok movies, requests := log }

/-- The source's `tmdbGetPopular({ page, limit })` in double precision, run for at
most `fuel` iterations of its loop. -/
def tmdbGetPopularDouble (up : Upstream) (fuel tick : Nat) (page limit : Int) :
    Option (Run Obj) :=
  match popularLoopDouble up fuel tick page limit [] [] with
  | none => none
  | some r =>
    some
      { result :=
          match r.result with
          | Except.ok movies =>
            Except.ok [("movies", Val.arr movies), ("page", Val.num page),
                       ("total", Val.num (movies.length : Int))]
          | Except.error e => Except.error e
        requests := r.requests }

/-- The source's `tmdbGetTopRated({ page })`. -/
def tmdbGetTopRated (up : Upstream) (tick : Nat) (page : Int) : Run Obj :=
  match tmdbFetch up tick (topRatedRequest page) with
  | Except.error e => { result := Except.error e, requests := [topRatedRequest page] }
  | Except.ok data =>
    { result := Except.ok [("movies", Val.arr (normalizedResults data)),
                           ("page", optNum data.page),
                           ("total", optNum data.total_results)]
      requests := [topRatedRequest page] }

/-! ## Query orchestrator -/

/-- The object `{ movies: res.movies || [], page: res.page || 1, total: res.total || 0 }`. -/
def uniformShape (res : Obj) : Obj :=
  [("movies", (getField res "movies").orElse (Val.arr [])),
   ("page", (getField res "page").orElse (Val.num 1)),
   ("total", (getField res "total").orElse (Val.num 0))]

/-- The source's `fetchMovies({ query, page, limit })` for a string `query`: a
rejection of the awaited call propagates, a result is reshaped. -/
def fetchMovies (up : Upstream) (tick : Nat) (query : JsString) (page limit : Int) : Run Obj :=
  if query ≠ [] ∧ jsTrim query ≠ [] then
    let r := tmdbSearchMovies up tick query page
    { result := Except.map uniformShape r.result, requests := r.requests }
  else
    let r := tmdbGetPopular up tick page limit
    { result := Except.map uniformShape r.result, requests := r.requests }

/-- The source's `res.movies || []` read as a list. Every object this module
builds stores an array under `movies` or has no such field. -/
def moviesOf (res : Obj) : List Movie :=
  match (getField res "movies").orElse (Val.arr []) with
  | Val.arr ms => ms
  | _ => []

/-- The part of the document `populateMainGrids` reads: the ids of the elements
of class `movie-list`, in document order, and which ids `getElementById` finds. -/
structure Dom where
  movieLists : List JsString
  hasElement : JsString → Bool

/-- The calls `populateMainGrids` makes on the presentation layer and the console. -/
inductive Effect
  | renderGrid (gridId : JsString) (movies : List Movie)
  | populateBestCarousel (movies : List Movie)
  | renderSection (sectionId : JsString) (movies : List Movie)
  | moviesCount (shown : Nat)
  | consoleError (e : Thrown)
deriving DecidableEq

/-- A finished call of `populateMainGrids`. -/
structure GridsRun where
  result : Except Thrown Unit
  requests : List Request
  effects : List Effect

/-- The source's `promise.catch(() => ({ movies: [] }))`. -/
def catchEmpty (r : Run Obj) : Obj :=
  match r.result with
  | Except.ok res => res
  | Except.error _ => [("movies", Val.arr [])]

/-- The `renderMovies` call made for one element of class `movie-list`. -/
def renderGridFor (movies : List Movie) (homeLimit : Int) (gridId : JsString) : Effect :=
  if gridId = js "movieList" then Effect.renderGrid gridId movies
  else if gridId = js "homeMovieList" then Effect.renderGrid gridId (jsSliceTo movies homeLimit)
  else Effect.renderGrid gridId (jsSliceTo movies (min homeLimit (movies.length : Int)))

/-- The `sections.forEach` of `populateMainGrids`: a section whose element is
missing is skipped, the others get `s.movies.slice(0, s.count)`. -/
def renderSections (dom : Dom) : List (JsString × List Movie × Int) → List Effect
  | [] => []
  | (sectionId, movies, count) :: rest =>
    if dom.hasElement sectionId then
      Effect.renderSection sectionId (jsSliceTo movies count) :: renderSections dom rest
    else renderSections dom rest

/-- The source's `populateMainGrids({ page, limit, homeLimit })`. The three
auxiliary calls are started one after the other and each issues its single
request when it is started, so their requests are numbered in that order. The
whole body sits in a `try` whose `catch` logs. -/
def populateMainGrids (up : Upstream) (tick : Nat) (dom : Dom) (page limit homeLimit : Int) :
    GridsRun :=
  let primary := fetchMovies up tick [] page limit
  match primary.result with
  | Except.error err =>
    { result := Except.ok (), requests := primary.requests, effects := [Effect.consoleError err] }
  | Except.ok moviesRes =>
    let movies := moviesOf moviesRes
    let t1 := tick + primary.requests.length
    let top := tmdbGetTopRated up t1 1
    let popular := tmdbGetPopular up (t1 + top.requests.length) 1 20
    let newly := tmdbGetPopular up (t1 + top.requests.length + popular.requests.length) 2 20
    let topRes := catchEmpty top
    let popularRes := catchEmpty popular
    let newlyRes := catchEmpty newly
    let sections : List (JsString × List Movie × Int) :=
      [(js "top-rated", moviesOf topRes, 6),
       (js "popular", moviesOf popularRes, 6),
       (js "newly-added", moviesOf newlyRes, 6)]
    { result := Except.ok ()
      requests := primary.requests ++ top.requests ++ popular.requests ++ newly.requests
      effects :=
        dom.movieLists.map (renderGridFor movies homeLimit) ++
        [Effect.populateBestCarousel (jsSliceTo (moviesOf topRes) 6)] ++
        renderSections dom sections ++
        (if dom.hasElement (js "moviesCount") then [Effect.moviesCount movies.length] else []) }

/-! ## HTTP client -/

/-- A request body handed to `apiFetch`: a string, or an object to serialize. -/
inductive ReqBody (J : Type)
  | text (s : JsString)
  | object (j : J)

/-- The `options` argument of `apiFetch`. -/
structure ApiOptions (J : Type) where
  method : Option JsString
  headers : Option (List (JsString × JsString))
  body : Option (ReqBody J)

/-- What `apiFetch` hands to the platform's `fetch`. -/
structure ApiRequest where
  url : JsString
  credentials : JsString
  method : Option JsString
  headers : List (JsString × JsString)
  body : Option JsString

/-- A response body as `apiFetch` reads it: the value `json()` resolved to, or
the string `text()` resolved to. -/
inductive ApiBody (J : Type)
  | parsed (j : J)
  | raw (s : JsString)

/-- What `apiFetch` can throw: the rejection of `fetch`, the rejection of
`json()`, or its own error with `status` and `body`. -/
inductive ApiThrown (J : Type)
  | transport
  | jsonRejected
  | requestFailed (status : Nat) (body : ApiBody J)

/-- `API_BASE`. -/
def apiBase : JsString := js "https://www.themoviedb.org/"

/-- Assignment `headers[k] = v`. -/
def setHeader (hs : List (JsString × JsString)) (k v : JsString) : List (JsString × JsString) :=
  if hs.any (fun kv => kv.1 == k) then hs.map (fun kv => if kv.1 == k then (k, v) else kv)
  else hs ++ [(k, v)]

/-- The request `apiFetch` builds from `path`, `options` and the stored token. -/
def apiRequest {J : Type} (stringify : J → JsString) (token : Option JsString)
    (path : JsString) (options : ApiOptions J) : ApiRequest :=
  let headers0 := match options.headers with
    | some hs => hs
    | none => []
  let headers1 := setHeader headers0 (js "Content-Type")
    (strOr (headers0.lookup (js "Content-Type")) (js "application/json"))
  let headers2 := match token with
    | some (c :: cs) => setHeader headers1 (js "Authorization") (js "Bearer " ++ (c :: cs))
    | _ => headers1
  { url := apiBase ++ path
    credentials := js "same-origin"
    method := options.method
    headers := headers2
    body := match options.body with
      | some (ReqBody.object j) => some (stringify j)
      | some (ReqBody.text s) => some s
      | none => none }

/-- The source's `apiFetch(path, options)`; `stringify` is `JSON.stringify`,
`token` is `localStorage.getItem(AUTH_TOKEN_KEY)` and `fetch` is the platform's
`fetch`. -/
def apiFetch {J : Type} (stringify : J → JsString) (token : Option JsString)
    (fetch : ApiRequest → FetchOutcome J) (path : JsString) (options : ApiOptions J) :
    Except (ApiThrown J) (ApiBody J) :=
  match fetch (apiRequest stringify token path options) with
  | FetchOutcome.rejected => Except.error ApiThrown.transport
  | FetchOutcome.response res =>
    let contentType := strOr res.contentType []
    if !res.ok then
      if jsIncludes contentType (js "application/json") then
        match res.json with
        | some j => Except.error (ApiThrown.requestFailed res.status (ApiBody.parsed j))
        | none => Except.error ApiThrown.jsonRejected
      else Except.error (ApiThrown.requestFailed res.status (ApiBody.raw res.text))
    else if jsIncludes contentType (js "application/json") then
      match res.json with
      | some j => Except.ok (ApiBody.parsed j)
      | none => Except.error ApiThrown.jsonRejected
    else Except.ok (ApiBody.raw res.text)

/-! ## Specification vocabulary -/

/-- The requests for the `k` successive popularity pages `page`, `page + 1`, ... -/
def pageRequests : Nat → Int → List Request
  | 0, _ => []
  | k + 1, page => popularRequest page :: pageRequests k (page + 1)

/-- The normalized results of the response to the popularity request for `page`
issued as request number `tick`; empty when that fetch fails. -/
def fetchedPage (up : Upstream) (tick : Nat) (page : Int) : List Movie :=
  match tmdbFetch up tick (popularRequest page) with
  | Except.ok data => normalizedResults data
  | Except.error _ => []

/-- The concatenation, in page order, of the normalized results of `k`
successive popularity pages fetched from request number `tick` on. -/
def fetchedPages (up : Upstream) : Nat → Nat → Int → List Movie
  | 0, _, _ => []
  | k + 1, tick, page => fetchedPage up tick page ++ fetchedPages up k (tick + 1) (page + 1)

/-- The `renderMovies` calls made for the home-page sections, as pairs of
section id and movie list, in the order made. -/
def sectionRenders : List Effect → List (JsString × List Movie)
  | [] => []
  | Effect.renderSection sectionId movies :: rest => (sectionId, movies) :: sectionRenders rest
  | _ :: rest => sectionRenders rest

/-- What the spec gives a home-page section: the empty list when its fetch
rejected, the first 6 movies of the fetched result otherwise. -/
def sectionFeed (r : Run Obj) : List Movie :=
  match r.result with
  | Except.error _ => []
  | Except.ok res =>
    match getField res "movies" with
    | Val.arr ms => ms.take 6
    | _ => []

/-! ## Sample inputs -/

/-- A catalog record with every image field present. -/
def sampleRaw : TmdbRaw :=
  { id := RawId.num 7, title := some (js "Heat"), name := none
    release_date := some (js "1995-12-15"), first_air_date := none
    poster_path := some (js "/p.jpg"), backdrop_path := some (js "/b.jpg")
    vote_average := none, vote_count := some 3, overview := none }

/-- A catalog page body carrying `n` results. -/
def pageOf (n : Nat) : TmdbData :=
  { results := some (List.replicate n sampleRaw), page := some 1
    total_results := some 1000, total_pages := some 50 }

/-- A 200 response with the given JSON body. -/
def okResponse (data : TmdbData) : FetchOutcome TmdbData :=
  FetchOutcome.response
    { status := 200, contentType := some (js "application/json"), text := [], json := some data }

/-- An upstream every page of which carries `n` results. -/
def upstreamOf (n : Nat) : Upstream := fun _ _ => okResponse (pageOf n)

/-- A catalog record with a backdrop image and no poster image. -/
def backdropOnlyRaw : TmdbRaw :=
  { id := RawId.num 8, title := some (js "Ran"), name := none
    release_date := none, first_air_date := some (js "1985-06-01")
    poster_path := none, backdrop_path := some (js "/b.jpg")
    vote_average := none, vote_count := none, overview := none }

/-- A catalog record whose release date is the three-character string `abc`. -/
def shortDateRaw : TmdbRaw :=
  { id := RawId.num 9, title := none, name := none
    release_date := some (js "abc"), first_air_date := none
    poster_path := none, backdrop_path := none
    vote_average := none, vote_count := none, overview := none }

/-- An upstream of full pages whose request number 3 is rejected. -/
def flakyUpstream : Upstream := fun t _ =>
  if t = 3 then FetchOutcome.rejected else okResponse (pageOf 20)

/-- A document that has every section and one main grid. -/
def homeDom : Dom := { movieLists := [js "movieList"], hasElement := fun _ => true }

/-- Whether the response carries a `content-type` header containing
`application/json`. -/
def declaresJson {J : Type} (res : Response J) : Bool :=
  match res.contentType with
  | some ct => jsIncludes ct (js "application/json")
  | none => false

/-- A 500 response that declares JSON and has an empty body, so that `json()`
rejects. -/
def brokenJsonResponse : Response Nat :=
  { status := 500, contentType := some (js "application/json"), text := [], json := none }

/-- A 404 response with a JSON body (the parsed value is stood for by `7`). -/
def notFoundResponse : Response Nat :=
  { status := 404, contentType := some (js "application/json; charset=utf-8")
    text := js "7", json := some 7 }

/-- The options of a plain `GET`. -/
def getOptions : ApiOptions Nat := { method := some (js "GET"), headers := none, body := none }

end MovieApi

namespace MovieApi

/-! ## Helper lemmas -/

theorem jsSliceTo_of_nonneg {α : Type} (xs : List α) (n : Int) (h : 0 ≤ n) :
    jsSliceTo xs n = xs.take n.toNat := by
  unfold jsSliceTo
  rw [if_neg (by omega)]

theorem take_append_split {α : Type} (xs ys : List α) (r : Int) (hr : 0 < r) :
    (xs ++ ys).take r.toNat =
      xs.take (min r (xs.length : Int)).toNat ++ ys.take (r - min r (xs.length : Int)).toNat := by
  rw [List.take_append_eq_append_take]
  congr 1
  · rcases le_total r (xs.length : Int) with h | h
    · rw [min_eq_left h]
    · rw [min_eq_right h, List.take_of_length_le (by omega), List.take_of_length_le (by omega)]
  · congr 1
    rcases le_total r (xs.length : Int) with h | h
    · rw [min_eq_left h]; omega
    · rw [min_eq_right h]; omega

theorem popularLoop_exit (up : Upstream) (tick : Nat) (cur rem : Int) (acc : List Movie)
    (log : List Request) (h : ¬ (rem > 0 ∧ cur ≤ 500)) :
    popularLoop up tick cur rem acc log = { result := Except.ok acc, requests := log } := by
  rw [popularLoop, dif_neg h]

theorem popularLoop_error (up : Upstream) (tick : Nat) (cur rem : Int) (acc : List Movie)
    (log : List Request) (h : rem > 0 ∧ cur ≤ 500) (e : Thrown)
    (hf : tmdbFetch up tick (popularRequest cur) = Except.error e) :
    popularLoop up tick cur rem acc log =
      { result := Except.error e, requests := log ++ [popularRequest cur] } := by
  rw [popularLoop, dif_pos h]
  simp only [hf]

theorem popularLoop_short (up : Upstream) (tick : Nat) (cur rem : Int) (acc : List Movie)
    (log : List Request) (h : rem > 0 ∧ cur ≤ 500) (data : TmdbData)
    (hf : tmdbFetch up tick (popularRequest cur) = Except.ok data)
    (hs : (normalizedResults data).length < 20) :
    popularLoop up tick cur rem acc log =
      { result := Except.ok (acc ++ jsSliceTo (normalizedResults data)
          (min rem ((normalizedResults data).length : Int)))
        requests := log ++ [popularRequest cur] } := by
  rw [popularLoop, dif_pos h]
  simp only [hf, if_pos hs]

theorem popularLoop_full (up : Upstream) (tick : Nat) (cur rem : Int) (acc : List Movie)
    (log : List Request) (h : rem > 0 ∧ cur ≤ 500) (data : TmdbData)
    (hf : tmdbFetch up tick (popularRequest cur) = Except.ok data)
    (hs : ¬ (normalizedResults data).length < 20) :
    popularLoop up tick cur rem acc log =
      popularLoop up (tick + 1) (cur + 1) (rem - min rem ((normalizedResults data).length : Int))
        (acc ++ jsSliceTo (normalizedResults data) (min rem ((normalizedResults data).length : Int)))
        (log ++ [popularRequest cur]) := by
  rw [popularLoop, dif_pos h]
  simp only [hf, if_neg hs]

/-- What one run of the loop does: it issues the requests for `k` successive
pages, at most up to page 500; every page before the last one came back whole
(20 results or more); a normal exit returns the accumulator followed by the
first `remaining` movies of the pages fetched, all of which were fetched
successfully; a failure is the failure of the last fetch. -/
theorem popularLoop_spec (up : Upstream) (tick : Nat) (cur rem : Int) (acc : List Movie)
    (log : List Request) :
    ∃ k : Nat,
      (popularLoop up tick cur rem acc log).requests = log ++ pageRequests k cur ∧
      (k : Int) ≤ max 0 (501 - cur) ∧
      (∀ i : Nat, i + 1 < k → ∃ data,
        tmdbFetch up (tick + i) (popularRequest (cur + (i : Int))) = Except.ok data ∧
        20 ≤ (normalizedResults data).length) ∧
      (∀ ms, (popularLoop up tick cur rem acc log).result = Except.ok ms →
        ms = acc ++ (fetchedPages up k tick cur).take rem.toNat ∧
        ∀ i : Nat, i < k → ∃ data,
          tmdbFetch up (tick + i) (popularRequest (cur + (i : Int))) = Except.ok data) ∧
      (∀ e, (popularLoop up tick cur rem acc log).result = Except.error e →
        ∃ j : Nat, k = j + 1 ∧
          tmdbFetch up (tick + j) (popularRequest (cur + (j : Int))) = Except.error e) := by
  induction tick, cur, rem, acc, log using popularLoop.induct up with
  | case1 tick cur rem acc log h e hf =>
    refine ⟨1, ?_, by omega, ?_, ?_, ?_⟩
    · rw [popularLoop_error up tick cur rem acc log h e hf]; rfl
    · intro i hi; omega
    · intro ms hms
      rw [popularLoop_error up tick cur rem acc log h e hf] at hms
      cases hms
    · intro e2 he
      rw [popularLoop_error up tick cur rem acc log h e hf] at he
      refine ⟨0, rfl, ?_⟩
      simp only [Except.error.injEq] at he
      subst he
      simpa using hf
  | case2 tick cur rem acc log h data hf pageMovies hs =>
    simp only [pageMovies] at hs
    clear pageMovies
    refine ⟨1, ?_, by omega, ?_, ?_, ?_⟩
    · rw [popularLoop_short up tick cur rem acc log h data hf hs]; rfl
    · intro i hi; omega
    · intro ms hms
      rw [popularLoop_short up tick cur rem acc log h data hf hs] at hms
      simp only [Except.ok.injEq] at hms
      subst hms
      refine ⟨?_, ?_⟩
      · have hsl : jsSliceTo (normalizedResults data)
            (min rem ((normalizedResults data).length : Int)) =
            (normalizedResults data).take (min rem ((normalizedResults data).length : Int)).toNat :=
          jsSliceTo_of_nonneg _ _ (by omega)
        rw [hsl]
        have := take_append_split (normalizedResults data) [] rem h.1
        simp only [fetchedPages, fetchedPage, hf, List.append_nil, List.take_nil] at this ⊢
        rw [this]
      · intro i hi
        have : i = 0 := by omega
        subst this
        exact ⟨data, by simpa using hf⟩
    · intro e he
      rw [popularLoop_short up tick cur rem acc log h data hf hs] at he
      cases he
  | case3 tick cur rem acc log h data hf pageMovies toTake hs ih =>
    simp only [pageMovies, toTake] at ih hs
    clear toTake pageMovies
    obtain ⟨k, hreq, hk, hfull, hok, herr⟩ := ih
    rw [← popularLoop_full up tick cur rem acc log h data hf hs] at hreq hok herr
    refine ⟨k + 1, ?_, by omega, ?_, ?_, ?_⟩
    · rw [hreq]; simp [pageRequests]
    · intro i hi
      rcases i with _ | i
      · exact ⟨data, by simpa using hf, by omega⟩
      · obtain ⟨d, hd, hl⟩ := hfull i (by omega)
        refine ⟨d, ?_, hl⟩
        have e1 : tick + (i + 1) = tick + 1 + i := by omega
        have e2 : cur + ((i + 1 : Nat) : Int) = cur + 1 + (i : Int) := by push_cast; ring
        rw [e1, e2]; exact hd
    · intro ms hms
      obtain ⟨hm, hall⟩ := hok ms hms
      refine ⟨?_, ?_⟩
      · rw [hm]
        have hsl : jsSliceTo (normalizedResults data)
            (min rem ((normalizedResults data).length : Int)) =
            (normalizedResults data).take (min rem ((normalizedResults data).length : Int)).toNat :=
          jsSliceTo_of_nonneg _ _ (by omega)
        rw [hsl]
        have := take_append_split (normalizedResults data)
          (fetchedPages up k (tick + 1) (cur + 1)) rem h.1
        simp only [fetchedPages, fetchedPage, hf]
        rw [this, List.append_assoc]
      · intro i hi
        rcases i with _ | i
        · exact ⟨data, by simpa using hf⟩
        · obtain ⟨d, hd⟩ := hall i (by omega)
          refine ⟨d, ?_⟩
          have e1 : tick + (i + 1) = tick + 1 + i := by omega
          have e2 : cur + ((i + 1 : Nat) : Int) = cur + 1 + (i : Int) := by push_cast; ring
          rw [e1, e2]; exact hd
    · intro e he
      obtain ⟨j, hj, hje⟩ := herr e he
      refine ⟨j + 1, by omega, ?_⟩
      have e1 : tick + (j + 1) = tick + 1 + j := by omega
      have e2 : cur + ((j + 1 : Nat) : Int) = cur + 1 + (j : Int) := by push_cast; ring
      rw [e1, e2]; exact hje
  | case4 tick cur rem acc log h =>
    refine ⟨0, ?_, by omega, ?_, ?_, ?_⟩
    · rw [popularLoop_exit up tick cur rem acc log h]; simp [pageRequests]
    · intro i hi; omega
    · intro ms hms
      rw [popularLoop_exit up tick cur rem acc log h] at hms
      simp only [Except.ok.injEq] at hms
      subst hms
      refine ⟨by simp [fetchedPages], ?_⟩
      intro i hi; omega
    · intro e he
      rw [popularLoop_exit up tick cur rem acc log h] at he
      cases he

theorem pageRequests_length (k : Nat) (page : Int) : (pageRequests k page).length = k := by
  induction k generalizing page with
  | zero => rfl
  | succ k ih => simp [pageRequests, ih]

theorem pageRequests_mem (k : Nat) (page : Int) (r : Request) (h : r ∈ pageRequests k page) :
    ∃ i : Nat, i < k ∧ r = popularRequest (page + (i : Int)) := by
  induction k generalizing page with
  | zero => simp [pageRequests] at h
  | succ k ih =>
    simp only [pageRequests, List.mem_cons] at h
    rcases h with h | h
    · exact ⟨0, by omega, by simpa using h⟩
    · obtain ⟨i, hi, hr⟩ := ih (page + 1) h
      refine ⟨i + 1, by omega, ?_⟩
      rw [hr]; congr 1; push_cast; ring

theorem normalizedResults_length (data : TmdbData) (rs : List TmdbRaw)
    (h : data.results = some rs) : (normalizedResults data).length = rs.length := by
  simp [normalizedResults, h]

/-- The requests and the result object of `tmdbGetPopular`, read off the loop. -/
theorem tmdbGetPopular_spec (up : Upstream) (tick : Nat) (page limit : Int) :
    ∃ k : Nat,
      (tmdbGetPopular up tick page limit).requests = pageRequests k page ∧
      (k : Int) ≤ max 0 (501 - page) ∧
      (∀ i : Nat, i + 1 < k → ∃ data,
        tmdbFetch up (tick + i) (popularRequest (page + (i : Int))) = Except.ok data ∧
        20 ≤ (normalizedResults data).length) ∧
      ((∃ j : Nat, ∃ e, k = j + 1 ∧
          tmdbFetch up (tick + j) (popularRequest (page + (j : Int))) = Except.error e ∧
          (tmdbGetPopular up tick page limit).result = Except.error e) ∨
        ((∀ i : Nat, i < k → ∃ data,
            tmdbFetch up (tick + i) (popularRequest (page + (i : Int))) = Except.ok data) ∧
          (tmdbGetPopular up tick page limit).result =
            Except.ok [("movies", Val.arr ((fetchedPages up k tick page).take limit.toNat)),
                       ("page", Val.num page),
                       ("total", Val.num
                         (((fetchedPages up k tick page).take limit.toNat).length : Int))])) := by
  obtain ⟨k, hreq, hk, hfull, hok, herr⟩ := popularLoop_spec up tick page limit [] []
  refine ⟨k, by simpa [tmdbGetPopular] using hreq, hk, hfull, ?_⟩
  cases hres : (popularLoop up tick page limit [] []).result with
  | error e =>
    obtain ⟨j, hj, hje⟩ := herr e hres
    exact Or.inl ⟨j, e, hj, hje, by simp [tmdbGetPopular, hres]⟩
  | ok ms =>
    obtain ⟨hm, hall⟩ := hok ms hres
    refine Or.inr ⟨hall, ?_⟩
    simp only [List.nil_append] at hm
    simp [tmdbGetPopular, hres, hm]

theorem fetchedPages_length_full (up : Upstream) (k : Nat) (tick : Nat) (page : Int)
    (h : ∀ i : Nat, i < k → ∃ data rs,
      tmdbFetch up (tick + i) (popularRequest (page + (i : Int))) = Except.ok data ∧
      data.results = some rs ∧ rs.length = 20) :
    (fetchedPages up k tick page).length = 20 * k := by
  induction k generalizing tick page with
  | zero => rfl
  | succ k ih =>
    obtain ⟨data, rs, hf, hr, hl⟩ := h 0 (by omega)
    simp only [Nat.cast_zero, add_zero] at hf
    have hrest := ih (tick + 1) (page + 1) (by
      intro i hi
      obtain ⟨d, rs2, hd, hr2, hl2⟩ := h (i + 1) (by omega)
      refine ⟨d, rs2, ?_, hr2, hl2⟩
      have e1 : tick + (i + 1) = tick + 1 + i := by omega
      have e2 : page + ((i + 1 : Nat) : Int) = page + 1 + (i : Int) := by push_cast; ring
      rw [← e1, ← e2]; exact hd)
    simp only [fetchedPages, fetchedPage, hf, List.length_append, hrest,
      normalizedResults_length data rs hr, hl]
    omega

theorem popularLoop_full_pages (up : Upstream) (k : Nat) (tick : Nat) (cur rem : Int)
    (acc : List Movie) (log : List Request)
    (hlo : 20 * ((k : Int) - 1) < rem) (hhi : rem ≤ 20 * (k : Int)) (hpage : cur + (k : Int) ≤ 501)
    (h : ∀ i : Nat, i < k → ∃ data rs,
      tmdbFetch up (tick + i) (popularRequest (cur + (i : Int))) = Except.ok data ∧
      data.results = some rs ∧ rs.length = 20) :
    popularLoop up tick cur rem acc log =
      { result := Except.ok (acc ++ (fetchedPages up k tick cur).take rem.toNat)
        requests := log ++ pageRequests k cur } := by
  induction k generalizing tick cur rem acc log with
  | zero =>
    rw [popularLoop_exit up tick cur rem acc log (by simp at hhi; omega)]
    simp [fetchedPages, pageRequests]
  | succ k ih =>
    obtain ⟨data, rs, hf, hr, hl⟩ := h 0 (by omega)
    simp only [Nat.cast_zero, add_zero] at hf
    have hlen : (normalizedResults data).length = 20 := by
      rw [normalizedResults_length data rs hr, hl]
    have hpos : rem > 0 ∧ cur ≤ 500 := by push_cast at hlo hpage; omega
    rw [popularLoop_full up tick cur rem acc log hpos data hf (by omega)]
    rw [ih (tick + 1) (cur + 1) _ _ _ (by push_cast at hlo hhi; omega)
      (by push_cast at hlo hhi; omega) (by push_cast at hpage; omega) (by
        intro i hi
        obtain ⟨d, rs2, hd, hr2, hl2⟩ := h (i + 1) (by omega)
        refine ⟨d, rs2, ?_, hr2, hl2⟩
        have e1 : tick + (i + 1) = tick + 1 + i := by omega
        have e2 : cur + ((i + 1 : Nat) : Int) = cur + 1 + (i : Int) := by push_cast; ring
        rw [← e1, ← e2]; exact hd)]
    have hsl : jsSliceTo (normalizedResults data)
        (min rem ((normalizedResults data).length : Int)) =
        (normalizedResults data).take (min rem ((normalizedResults data).length : Int)).toNat :=
      jsSliceTo_of_nonneg _ _ (by omega)
    have := take_append_split (normalizedResults data)
      (fetchedPages up k (tick + 1) (cur + 1)) rem hpos.1
    simp only [fetchedPages, fetchedPage, hf, hsl, this, List.append_assoc, pageRequests,
      List.singleton_append]

theorem tmdbFetch_upstreamOf (n tick : Nat) (req : Request) :
    tmdbFetch (upstreamOf n) tick req = Except.ok (pageOf n) := rfl

/-! ## Popularity aggregation -/

/-- C1. With a start page `p` (any integer, so also every `p >= 1`), limit
`L >= 1`, `p + ceil(L/20) - 1 <= 500` and each of the `ceil(L/20)` pages from `p`
on returning exactly 20 results,
`tmdbGetPopular` requests exactly those pages (so at most `ceil(L/20)` fetches)
and returns exactly `L` movies: the first `L` of the pages' normalized results
concatenated in page order, with `total = L`. -/
theorem tmdbGetPopular_full_pages (up : Upstream) (tick : Nat) (p L : Int)
    (hL : 1 ≤ L) (hceil : p + (L + 19) / 20 - 1 ≤ 500)
    (hfull : ∀ i : Nat, (i : Int) < (L + 19) / 20 → ∃ data rs,
      tmdbFetch up (tick + i) (popularRequest (p + (i : Int))) = Except.ok data ∧
      data.results = some rs ∧ rs.length = 20) :
    (tmdbGetPopular up tick p L).requests = pageRequests ((L + 19) / 20).toNat p ∧
    ((tmdbGetPopular up tick p L).requests.length : Int) ≤ (L + 19) / 20 ∧
    ∃ ms, (tmdbGetPopular up tick p L).result =
        Except.ok [("movies", Val.arr ms), ("page", Val.num p), ("total", Val.num L)] ∧
      (ms.length : Int) = L ∧
      ms = (fetchedPages up ((L + 19) / 20).toNat tick p).take L.toNat := by
  have hfull2 : ∀ i : Nat, i < ((L + 19) / 20).toNat → ∃ data rs,
      tmdbFetch up (tick + i) (popularRequest (p + (i : Int))) = Except.ok data ∧
      data.results = some rs ∧ rs.length = 20 := fun i hi => hfull i (by omega)
  have hrun := popularLoop_full_pages up ((L + 19) / 20).toNat tick p L [] []
    (by omega) (by omega) (by omega) hfull2
  have hlen := fetchedPages_length_full up ((L + 19) / 20).toNat tick p hfull2
  have hms : (((fetchedPages up ((L + 19) / 20).toNat tick p).take L.toNat).length : Int) = L := by
    rw [List.length_take, hlen]; omega
  refine ⟨?_, ?_, _, ?_, hms, rfl⟩
  · simp [tmdbGetPopular, hrun]
  · simp only [tmdbGetPopular, hrun, List.nil_append, pageRequests_length]; omega
  · simp only [tmdbGetPopular, hrun, List.nil_append, hms]

/-- C1, instance: start page 1 and limit 45 over an upstream of full pages give
at most 3 fetches and exactly 45 movies. -/
theorem tmdbGetPopular_full_pages_witness :
    (tmdbGetPopular (upstreamOf 20) 0 1 45).requests = pageRequests 3 1 ∧
    ((tmdbGetPopular (upstreamOf 20) 0 1 45).requests.length : Int) ≤ 3 ∧
    ∃ ms, (tmdbGetPopular (upstreamOf 20) 0 1 45).result =
        Except.ok [("movies", Val.arr ms), ("page", Val.num 1), ("total", Val.num 45)] ∧
      (ms.length : Int) = 45 ∧
      ms = (fetchedPages (upstreamOf 20) 3 0 1).take 45 :=
  tmdbGetPopular_full_pages (upstreamOf 20) 0 1 45 (by decide) (by decide)
    (fun _ _ => ⟨pageOf 20, List.replicate 20 sampleRaw, rfl, rfl, rfl⟩)

/-- C2. If the `i`-th page fetched by `tmdbGetPopular` comes back with fewer than
20 results, it is the last page requested, whatever the limit, and the call
returns the movies accumulated up to and including that page. -/
theorem tmdbGetPopular_stops_at_short_page (up : Upstream) (tick : Nat) (page limit : Int)
    (i : Nat) (data : TmdbData)
    (hi : i < (tmdbGetPopular up tick page limit).requests.length)
    (hf : tmdbFetch up (tick + i) (popularRequest (page + (i : Int))) = Except.ok data)
    (hs : (normalizedResults data).length < 20) :
    (tmdbGetPopular up tick page limit).requests = pageRequests (i + 1) page ∧
    (tmdbGetPopular up tick page limit).result =
      Except.ok [("movies", Val.arr ((fetchedPages up (i + 1) tick page).take limit.toNat)),
                 ("page", Val.num page),
                 ("total", Val.num
                   (((fetchedPages up (i + 1) tick page).take limit.toNat).length : Int))] := by
  obtain ⟨k, hreq, _, hfull, hres⟩ := tmdbGetPopular_spec up tick page limit
  rw [hreq, pageRequests_length] at hi
  have hk : k = i + 1 := by
    by_contra hne
    obtain ⟨d, hd, hl⟩ := hfull i (by omega)
    rw [hf] at hd
    cases hd
    omega
  subst hk
  refine ⟨hreq, ?_⟩
  rcases hres with ⟨j, e, hj, hje, _⟩ | ⟨_, hok⟩
  · have : j = i := by omega
    subst this
    rw [hf] at hje
    cases hje
  · exact hok

/-- C2, instance: a first page of 12 results with limit 45 gives exactly one
fetch and 12 movies. -/
theorem tmdbGetPopular_stops_at_short_page_witness :
    (tmdbGetPopular (upstreamOf 12) 0 1 45).requests = [popularRequest 1] ∧
    (tmdbGetPopular (upstreamOf 12) 0 1 45).result =
      Except.ok [("movies", Val.arr (List.replicate 12 (mapTmdbToMovie sampleRaw))),
                 ("page", Val.num 1), ("total", Val.num 12)] := by
  have hreq : (tmdbGetPopular (upstreamOf 12) 0 1 45).requests = [popularRequest 1] := by
    simp [tmdbGetPopular, popularLoop_short (upstreamOf 12) 0 1 45 [] [] (by decide)
      (pageOf 12) rfl (by decide)]
  have h := tmdbGetPopular_stops_at_short_page (upstreamOf 12) 0 1 45 0 (pageOf 12)
    (by rw [hreq]; decide) rfl (by decide)
  refine ⟨hreq, ?_⟩
  rw [h.2]
  rfl

/-- C4. For a limit `>= 0` and an upstream whose fetches all succeed, whatever
the size of its pages, `tmdbGetPopular` returns `{ movies, page, total }` where
`movies` has at most `limit` entries, `total` is the length of `movies` and
`page` is the requested start page. -/
theorem tmdbGetPopular_result_shape (up : Upstream) (tick : Nat) (page limit : Int)
    (hl : 0 ≤ limit) (hall : ∀ t r, ∃ d, tmdbFetch up t r = Except.ok d) :
    ∃ ms, (tmdbGetPopular up tick page limit).result =
        Except.ok [("movies", Val.arr ms), ("page", Val.num page),
                   ("total", Val.num (ms.length : Int))] ∧
      (ms.length : Int) ≤ limit := by
  obtain ⟨k, _, _, _, hres⟩ := tmdbGetPopular_spec up tick page limit
  rcases hres with ⟨j, e, _, hje, _⟩ | ⟨_, hok⟩
  · obtain ⟨d, hd⟩ := hall (tick + j) (popularRequest (page + (j : Int)))
    rw [hd] at hje
    cases hje
  · refine ⟨_, hok, ?_⟩
    rw [List.length_take]
    omega

/-- C4, instance: pages of 25 results and limit 30. -/
theorem tmdbGetPopular_result_shape_witness :
    ∃ ms, (tmdbGetPopular (upstreamOf 25) 0 1 30).result =
        Except.ok [("movies", Val.arr ms), ("page", Val.num 1),
                   ("total", Val.num (ms.length : Int))] ∧
      (ms.length : Int) ≤ 30 :=
  tmdbGetPopular_result_shape (upstreamOf 25) 0 1 30 (by decide)
    (fun t r => ⟨pageOf 25, tmdbFetch_upstreamOf 25 t r⟩)

/-! ## Normalization -/

theorem imageUrl_w342 : imageBase ++ js "/" ++ js "w342" = js "https://image.tmdb.org/t/p/w342" := by
  decide

theorem imageUrl_w780 : imageBase ++ js "/" ++ js "w780" = js "https://image.tmdb.org/t/p/w780" := by
  decide

theorem imageUrl_base_w342 (p : JsString) :
    js "https://image.tmdb.org/t/p/" <+: js "https://image.tmdb.org/t/p/w342" ++ p := by
  have : js "https://image.tmdb.org/t/p/w342" = js "https://image.tmdb.org/t/p/" ++ js "w342" := by
    decide
  rw [this, List.append_assoc]
  exact List.prefix_append _ _

theorem imageUrl_base_w780 (p : JsString) :
    js "https://image.tmdb.org/t/p/" <+: js "https://image.tmdb.org/t/p/w780" ++ p := by
  have : js "https://image.tmdb.org/t/p/w780" = js "https://image.tmdb.org/t/p/" ++ js "w780" := by
    decide
  rw [this, List.append_assoc]
  exact List.prefix_append _ _

/-- C8. The poster of a normalized record follows the fallback chain: the
`w342` URL of `poster_path` when that is present and non-empty, otherwise the
`w780` URL of `backdrop_path` when that is present and non-empty, otherwise
`null`; so it is `null` or begins with the absolute image base. -/
theorem mapTmdbToMovie_poster_chain (r : TmdbRaw) :
    (∀ p, r.poster_path = some p → p ≠ [] →
      (mapTmdbToMovie r).poster = some (js "https://image.tmdb.org/t/p/w342" ++ p)) ∧
    (∀ b, (∀ p, r.poster_path = some p → p = []) → r.backdrop_path = some b → b ≠ [] →
      (mapTmdbToMovie r).poster = some (js "https://image.tmdb.org/t/p/w780" ++ b)) ∧
    ((∀ p, r.poster_path = some p → p = []) → (∀ b, r.backdrop_path = some b → b = []) →
      (mapTmdbToMovie r).poster = none) ∧
    ((mapTmdbToMovie r).poster = none ∨
      ∃ s, (mapTmdbToMovie r).poster = some s ∧ js "https://image.tmdb.org/t/p/" <+: s) := by
  have hposter : ∀ p, r.poster_path = some p → p ≠ [] →
      (mapTmdbToMovie r).poster = some (js "https://image.tmdb.org/t/p/w342" ++ p) := by
    intro p hp hne
    cases p with
    | nil => exact absurd rfl hne
    | cons c cs =>
      simp only [mapTmdbToMovie, hp, truthyStr, tmdbGetImageUrl, if_true]
      rw [imageUrl_w342]
  have hbackdrop : ∀ b, (∀ p, r.poster_path = some p → p = []) → r.backdrop_path = some b →
      b ≠ [] →
      (mapTmdbToMovie r).poster = some (js "https://image.tmdb.org/t/p/w780" ++ b) := by
    intro b hp hb hne
    have hfalse : truthyStr r.poster_path = false := by
      cases hpp : r.poster_path with
      | none => rfl
      | some p =>
        have := hp p hpp
        subst this
        rfl
    cases b with
    | nil => exact absurd rfl hne
    | cons c cs =>
      simp only [mapTmdbToMovie, hfalse, hb]
      simp only [truthyStr, tmdbGetImageUrl, if_true, Bool.false_eq_true, if_false]
      rw [imageUrl_w780]
  have hnone : (∀ p, r.poster_path = some p → p = []) → (∀ b, r.backdrop_path = some b → b = []) →
      (mapTmdbToMovie r).poster = none := by
    intro hp hb
    have hfalse : truthyStr r.poster_path = false := by
      cases hpp : r.poster_path with
      | none => rfl
      | some p =>
        have := hp p hpp
        subst this
        rfl
    have hfalse2 : truthyStr r.backdrop_path = false := by
      cases hbb : r.backdrop_path with
      | none => rfl
      | some b =>
        have := hb b hbb
        subst this
        rfl
    simp [mapTmdbToMovie, hfalse, hfalse2]
  refine ⟨hposter, hbackdrop, hnone, ?_⟩
  by_cases h1 : ∃ p, r.poster_path = some p ∧ p ≠ []
  · obtain ⟨p, hp, hne⟩ := h1
    exact Or.inr ⟨_, hposter p hp hne, imageUrl_base_w342 p⟩
  · have hp : ∀ p, r.poster_path = some p → p = [] := by
      intro p hpp
      by_contra hne
      exact h1 ⟨p, hpp, hne⟩
    by_cases h2 : ∃ b, r.backdrop_path = some b ∧ b ≠ []
    · obtain ⟨b, hb, hne⟩ := h2
      exact Or.inr ⟨_, hbackdrop b hp hb hne, imageUrl_base_w780 b⟩
    · refine Or.inl (hnone hp ?_)
      intro b hbb
      by_contra hne
      exact h2 ⟨b, hbb, hne⟩

/-- C8, instance: a record with only a backdrop gets the `w780` backdrop URL. -/
theorem mapTmdbToMovie_poster_chain_witness :
    (mapTmdbToMovie backdropOnlyRaw).poster =
      some (js "https://image.tmdb.org/t/p/w780" ++ js "/b.jpg") ∧
    (mapTmdbToMovie sampleRaw).poster =
      some (js "https://image.tmdb.org/t/p/w342" ++ js "/p.jpg") ∧
    (mapTmdbToMovie shortDateRaw).poster = none :=
  ⟨(mapTmdbToMovie_poster_chain backdropOnlyRaw).2.1 (js "/b.jpg")
      (by intro p h; simp [backdropOnlyRaw] at h) rfl (by decide),
   (mapTmdbToMovie_poster_chain sampleRaw).1 (js "/p.jpg") rfl (by decide),
   (mapTmdbToMovie_poster_chain shortDateRaw).2.2.1
      (by intro p h; simp [shortDateRaw] at h) (by intro b h; simp [shortDateRaw] at h)⟩

/-- C9, as stated, fails: a record whose release date is `abc` gets the year
`abc`, which is neither empty nor four digits. -/
theorem mapTmdbToMovie_year_short_date :
    (mapTmdbToMovie shortDateRaw).year = js "abc" ∧
    ¬ ((mapTmdbToMovie shortDateRaw).year = [] ∨
       ((mapTmdbToMovie shortDateRaw).year.length = 4 ∧
        ∀ c ∈ (mapTmdbToMovie shortDateRaw).year, isDigit c = true)) := by
  decide

/-- C9, amended. The year is the first four code units (the whole string when
it is shorter) of `release_date` when that is non-empty, otherwise of
`first_air_date` when that is non-empty, otherwise the empty string; it never
has more than four code units. -/
theorem mapTmdbToMovie_year_head (r : TmdbRaw) :
    (∀ d, r.release_date = some d → d ≠ [] → (mapTmdbToMovie r).year = d.take 4) ∧
    (∀ d, (∀ x, r.release_date = some x → x = []) → r.first_air_date = some d → d ≠ [] →
      (mapTmdbToMovie r).year = d.take 4) ∧
    ((∀ x, r.release_date = some x → x = []) → (∀ x, r.first_air_date = some x → x = []) →
      (mapTmdbToMovie r).year = []) ∧
    (mapTmdbToMovie r).year.length ≤ 4 := by
  have hyear : (mapTmdbToMovie r).year =
      (strOr r.release_date (strOr r.first_air_date [])).take 4 := by
    simp only [mapTmdbToMovie]
    exact jsSliceTo_of_nonneg _ 4 (by decide)
  have hfalsy : ∀ o : Option JsString, (∀ x, o = some x → x = []) → ∀ b, strOr o b = b := by
    intro o ho b
    cases o with
    | none => rfl
    | some x =>
      have := ho x rfl
      subst this
      rfl
  have htruthy : ∀ (o : Option JsString) d, o = some d → d ≠ [] → ∀ b, strOr o b = d := by
    intro o d ho hne b
    subst ho
    cases d with
    | nil => exact absurd rfl hne
    | cons c cs => rfl
  refine ⟨?_, ?_, ?_, ?_⟩
  · intro d hd hne
    rw [hyear, htruthy _ d hd hne]
  · intro d hrel hd hne
    rw [hyear, hfalsy _ hrel, htruthy _ d hd hne]
  · intro hrel hair
    rw [hyear, hfalsy _ hrel, hfalsy _ hair]
    rfl
  · rw [hyear, List.length_take]
    omega

/-- C9, amended, instances: a full date gives its four-digit year, the date
`abc` gives `abc`, no date gives the empty string. -/
theorem mapTmdbToMovie_year_head_witness :
    (mapTmdbToMovie sampleRaw).year = js "1995" ∧
    (mapTmdbToMovie backdropOnlyRaw).year = js "1985" ∧
    (mapTmdbToMovie shortDateRaw).year = js "abc" :=
  ⟨(mapTmdbToMovie_year_head sampleRaw).1 (js "1995-12-15") rfl (by decide),
   (mapTmdbToMovie_year_head backdropOnlyRaw).2.1 (js "1985-06-01")
      (by intro x h; simp [backdropOnlyRaw] at h) rfl (by decide),
   (mapTmdbToMovie_year_head shortDateRaw).1 (js "abc") rfl (by decide)⟩

/-! ## Catalog search -/

/-- C10, at the failing input. Called with the empty query, `tmdbSearchMovies`
issues no request and does not fail, but the object it returns has the fields
`results`, `page`, `total_results`, `total_pages`: its `movies` and `total`
are `undefined`. -/
theorem tmdbSearchMovies_empty_query (up : Upstream) (tick : Nat) (page : Int) :
    (tmdbSearchMovies up tick [] page).requests = [] ∧
    ∃ res, (tmdbSearchMovies up tick [] page).result = Except.ok res ∧
      fieldNames res = ["results", "page", "total_results", "total_pages"] ∧
      getField res "movies" = Val.undefined ∧
      getField res "total" = Val.undefined ∧
      getField res "results" = Val.arr [] ∧
      getField res "total_results" = Val.num 0 :=
  ⟨rfl, _, rfl, rfl, rfl, rfl, rfl, rfl⟩

/-! ## Query orchestrator -/

theorem jsTrim_nil : jsTrim [] = [] := rfl

theorem uniformShape_movies_of_arr (res : Obj) (ms : List Movie)
    (h : getField res "movies" = Val.arr ms) :
    getField (uniformShape res) "movies" = Val.arr ms := by
  show (getField res "movies").orElse (Val.arr []) = Val.arr ms
  rw [h]
  rfl

theorem tmdbSearchMovies_nonempty (up : Upstream) (tick : Nat) (query : JsString) (page : Int)
    (hq : query ≠ []) :
    (tmdbSearchMovies up tick query page).requests = [searchRequest query page] ∧
    ((∃ e, tmdbFetch up tick (searchRequest query page) = Except.error e ∧
        (tmdbSearchMovies up tick query page).result = Except.error e) ∨
      (∃ data, tmdbFetch up tick (searchRequest query page) = Except.ok data ∧
        (tmdbSearchMovies up tick query page).result =
          Except.ok [("movies", Val.arr (normalizedResults data)), ("page", optNum data.page),
                     ("total", optNum data.total_results),
                     ("totalPages", optNum data.total_pages)])) := by
  unfold tmdbSearchMovies
  rw [if_neg hq]
  cases hf : tmdbFetch up tick (searchRequest query page) with
  | error e => exact ⟨rfl, Or.inl ⟨e, rfl, rfl⟩⟩
  | ok data => exact ⟨rfl, Or.inr ⟨data, rfl, rfl⟩⟩

/-- C5. A query that is non-empty after trimming goes to catalog search with
the given page: the one request issued is the search request and the result is
that of `tmdbSearchMovies`, reshaped. A query that is empty or all whitespace
goes to `tmdbGetPopular({ page, limit })`: only popularity pages are requested
and the result is that of `tmdbGetPopular`, reshaped. Whatever is returned has
exactly the fields `movies` (an array), `page`, `total`, and something is
returned whenever the upstream fetches succeed. -/
theorem fetchMovies_routing (up : Upstream) (tick : Nat) (query : JsString) (page limit : Int) :
    (jsTrim query ≠ [] →
      (fetchMovies up tick query page limit).requests = [searchRequest query page] ∧
      (fetchMovies up tick query page limit).requests =
        (tmdbSearchMovies up tick query page).requests ∧
      (fetchMovies up tick query page limit).result =
        Except.map uniformShape (tmdbSearchMovies up tick query page).result) ∧
    (jsTrim query = [] →
      (fetchMovies up tick query page limit).requests =
        (tmdbGetPopular up tick page limit).requests ∧
      (∀ r ∈ (fetchMovies up tick query page limit).requests, r.path = "/movie/popular") ∧
      (fetchMovies up tick query page limit).result =
        Except.map uniformShape (tmdbGetPopular up tick page limit).result) ∧
    (∀ res, (fetchMovies up tick query page limit).result = Except.ok res →
      fieldNames res = ["movies", "page", "total"] ∧
      ∃ ms, getField res "movies" = Val.arr ms) ∧
    ((∀ t r, ∃ d, tmdbFetch up t r = Except.ok d) →
      ∃ res, (fetchMovies up tick query page limit).result = Except.ok res) := by
  by_cases ht : jsTrim query = []
  · have hdef : fetchMovies up tick query page limit =
        { result := Except.map uniformShape (tmdbGetPopular up tick page limit).result
          requests := (tmdbGetPopular up tick page limit).requests } := by
      unfold fetchMovies
      rw [if_neg (by intro h; exact h.2 ht)]
    obtain ⟨k, hreq, _, _, hres⟩ := tmdbGetPopular_spec up tick page limit
    refine ⟨fun h => absurd ht h, fun _ => ⟨by rw [hdef], ?_, by rw [hdef]⟩, ?_, ?_⟩
    · intro r hr
      rw [hdef] at hr
      simp only [hreq] at hr
      obtain ⟨i, _, hri⟩ := pageRequests_mem k page r hr
      rw [hri]
      rfl
    · intro res hr
      rw [hdef] at hr
      rcases hres with ⟨j, e, _, _, herr⟩ | ⟨_, hok⟩
      · simp only [herr, Except.map] at hr
        cases hr
      · simp only [hok, Except.map, Except.ok.injEq] at hr
        subst hr
        exact ⟨rfl, _, uniformShape_movies_of_arr _ _ rfl⟩
    · intro hall
      rcases hres with ⟨j, e, _, hje, _⟩ | ⟨_, hok⟩
      · obtain ⟨d, hd⟩ := hall (tick + j) (popularRequest (page + (j : Int)))
        rw [hd] at hje
        cases hje
      · rw [hdef]
        simp only [hok, Except.map]
        exact ⟨_, rfl⟩
  · have hq : query ≠ [] := by
      intro h
      exact ht (by rw [h]; rfl)
    have hdef : fetchMovies up tick query page limit =
        { result := Except.map uniformShape (tmdbSearchMovies up tick query page).result
          requests := (tmdbSearchMovies up tick query page).requests } := by
      unfold fetchMovies
      rw [if_pos ⟨hq, ht⟩]
    obtain ⟨hreq, hres⟩ := tmdbSearchMovies_nonempty up tick query page hq
    refine ⟨fun _ => ⟨by rw [hdef]; exact hreq, by rw [hdef], by rw [hdef]⟩,
      fun h => absurd h ht, ?_, ?_⟩
    · intro res hr
      rw [hdef] at hr
      rcases hres with ⟨e, _, herr⟩ | ⟨data, _, hok⟩
      · simp only [herr, Except.map] at hr
        cases hr
      · simp only [hok, Except.map, Except.ok.injEq] at hr
        subst hr
        exact ⟨rfl, _, uniformShape_movies_of_arr _ _ rfl⟩
    · intro hall
      rcases hres with ⟨e, hfe, _⟩ | ⟨data, _, hok⟩
      · obtain ⟨d, hd⟩ := hall tick (searchRequest query page)
        rw [hd] at hfe
        cases hfe
      · rw [hdef]
        simp only [hok, Except.map]
        exact ⟨_, rfl⟩

/-- C5, instances: the query `batman` issues the one search request, the empty
query issues only popularity requests. -/
theorem fetchMovies_routing_witness :
    (fetchMovies (upstreamOf 20) 0 (js "batman") 1 30).requests =
      [searchRequest (js "batman") 1] ∧
    (∀ r ∈ (fetchMovies (upstreamOf 20) 0 [] 1 30).requests, r.path = "/movie/popular") ∧
    (∃ res, (fetchMovies (upstreamOf 20) 0 [] 1 30).result = Except.ok res) :=
  ⟨((fetchMovies_routing (upstreamOf 20) 0 (js "batman") 1 30).1 (by decide)).1,
   ((fetchMovies_routing (upstreamOf 20) 0 [] 1 30).2.1 rfl).2.1,
   (fetchMovies_routing (upstreamOf 20) 0 [] 1 30).2.2.2
     (fun t r => ⟨pageOf 20, tmdbFetch_upstreamOf 20 t r⟩)⟩

/-! ## Home page sections -/

theorem tmdbGetTopRated_requests (up : Upstream) (tick : Nat) (page : Int) :
    (tmdbGetTopRated up tick page).requests = [topRatedRequest page] := by
  unfold tmdbGetTopRated
  cases tmdbFetch up tick (topRatedRequest page) <;> rfl

/-- With the default limit of 20 a popularity call issues exactly one request,
which is what lets the three auxiliary calls be numbered in starting order. -/
theorem tmdbGetPopular_default_limit_requests (up : Upstream) (tick : Nat) (page : Int)
    (hpage : page ≤ 500) :
    (tmdbGetPopular up tick page 20).requests = [popularRequest page] := by
  have hpos : (20 : Int) > 0 ∧ page ≤ 500 := ⟨by decide, hpage⟩
  unfold tmdbGetPopular
  cases hf : tmdbFetch up tick (popularRequest page) with
  | error e => rw [popularLoop_error up tick page 20 [] [] hpos e hf]; rfl
  | ok data =>
    by_cases hs : (normalizedResults data).length < 20
    · rw [popularLoop_short up tick page 20 [] [] hpos data hf hs]; rfl
    · rw [popularLoop_full up tick page 20 [] [] hpos data hf hs,
        popularLoop_exit up (tick + 1) (page + 1) _ _ _ (by omega)]
      rfl

theorem sectionRenders_append (a b : List Effect) :
    sectionRenders (a ++ b) = sectionRenders a ++ sectionRenders b := by
  induction a with
  | nil => rfl
  | cons e rest ih => cases e <;> simp [sectionRenders, ih]

theorem sectionRenders_grids (movies : List Movie) (homeLimit : Int) (ids : List JsString) :
    sectionRenders (ids.map (renderGridFor movies homeLimit)) = [] := by
  induction ids with
  | nil => rfl
  | cons gridId rest ih =>
    simp only [List.map_cons, renderGridFor]
    split_ifs <;> simpa [sectionRenders] using ih

theorem sectionRenders_renderSections (dom : Dom) (sections : List (JsString × List Movie × Int)) :
    sectionRenders (renderSections dom sections) =
      (sections.filter (fun s => dom.hasElement s.1)).map
        (fun s => (s.1, jsSliceTo s.2.1 s.2.2)) := by
  induction sections with
  | nil => rfl
  | cons s rest ih =>
    obtain ⟨sectionId, movies, count⟩ := s
    by_cases h : dom.hasElement sectionId = true
    · simp [renderSections, sectionRenders, h, ih]
    · simp [renderSections, h, ih]

theorem slice_catchEmpty (r : Run Obj) :
    jsSliceTo (moviesOf (catchEmpty r)) 6 = sectionFeed r := by
  rw [jsSliceTo_of_nonneg _ 6 (by decide)]
  unfold catchEmpty sectionFeed moviesOf
  cases r.result with
  | error e => rfl
  | ok res =>
    simp only
    cases hv : getField res "movies" with
    | undefined => rfl
    | num n =>
      by_cases hn : n = 0
      · subst hn; rfl
      · simp [Val.orElse, Val.truthy, hn]
    | arr ms => rfl

/-- C6. When the primary `fetchMovies` call succeeds, `populateMainGrids` does
not reject, and the sections rendered are, among `top-rated`, `popular` and
`newly-added`, those whose element exists, each from its own feed: the empty
list when its own fetch (top-rated page 1, popular page 1, popular page 2)
rejected, the first 6 movies of its own result otherwise. No section's list
depends on the outcome of another section's fetch. -/
theorem populateMainGrids_section_isolation (up : Upstream) (tick : Nat) (dom : Dom)
    (page limit homeLimit : Int) (moviesRes : Obj)
    (hprimary : (fetchMovies up tick [] page limit).result = Except.ok moviesRes) :
    (populateMainGrids up tick dom page limit homeLimit).result = Except.ok () ∧
    sectionRenders (populateMainGrids up tick dom page limit homeLimit).effects =
      ([(js "top-rated",
          sectionFeed (tmdbGetTopRated up
            (tick + (fetchMovies up tick [] page limit).requests.length) 1)),
        (js "popular",
          sectionFeed (tmdbGetPopular up
            (tick + (fetchMovies up tick [] page limit).requests.length + 1) 1 20)),
        (js "newly-added",
          sectionFeed (tmdbGetPopular up
            (tick + (fetchMovies up tick [] page limit).requests.length + 2) 2 20))].filter
        (fun s => dom.hasElement s.1)) := by
  unfold populateMainGrids
  simp only [hprimary, tmdbGetTopRated_requests, List.length_singleton,
    tmdbGetPopular_default_limit_requests up _ 1 (by decide)]
  refine ⟨trivial, ?_⟩
  rw [sectionRenders_append, sectionRenders_append, sectionRenders_append,
    sectionRenders_grids, sectionRenders_renderSections]
  have hcount : sectionRenders
      (if dom.hasElement (js "moviesCount") = true then
        [Effect.moviesCount (moviesOf moviesRes).length] else []) = [] := by
    split_ifs <;> rfl
  rw [hcount]
  simp only [sectionRenders, List.nil_append, List.append_nil, slice_catchEmpty,
    List.filter_cons, List.filter_nil]
  have e12 : ∀ n : Nat, n + 1 + 1 = n + 2 := fun n => rfl
  by_cases h1 : dom.hasElement (js "top-rated") = true <;>
  by_cases h2 : dom.hasElement (js "popular") = true <;>
  by_cases h3 : dom.hasElement (js "newly-added") = true <;>
  simp [h1, h2, h3, slice_catchEmpty, e12]

theorem flaky_popular (t : Nat) (p : Int) (ht : t ≠ 3) (hp : p ≤ 500) :
    tmdbGetPopular flakyUpstream t p 20 =
      { result := Except.ok [("movies", Val.arr (List.replicate 20 (mapTmdbToMovie sampleRaw))),
                             ("page", Val.num p), ("total", Val.num 20)]
        requests := [popularRequest p] } := by
  have hf : tmdbFetch flakyUpstream t (popularRequest p) = Except.ok (pageOf 20) := by
    simp [tmdbFetch, flakyUpstream, ht, okResponse, Response.ok]
  have hrun := popularLoop_full_pages flakyUpstream 1 t p 20 [] [] (by decide) (by decide)
    (by push_cast; omega) (by
      intro i hi
      have : i = 0 := by omega
      subst this
      exact ⟨pageOf 20, List.replicate 20 sampleRaw, by simpa using hf, rfl, rfl⟩)
  unfold tmdbGetPopular
  rw [hrun]
  simp only [fetchedPages, fetchedPage, hf]
  rfl

theorem flaky_newly :
    tmdbGetPopular flakyUpstream 3 2 20 =
      { result := Except.error Thrown.transport, requests := [popularRequest 2] } := by
  unfold tmdbGetPopular
  rw [popularLoop_error flakyUpstream 3 2 20 [] [] (by decide) Thrown.transport rfl]
  rfl

theorem flaky_primary :
    fetchMovies flakyUpstream 0 [] 1 20 =
      { result := Except.ok [("movies", Val.arr (List.replicate 20 (mapTmdbToMovie sampleRaw))),
                             ("page", Val.num 1), ("total", Val.num 20)]
        requests := [popularRequest 1] } := by
  unfold fetchMovies
  rw [if_neg (by simp)]
  simp only [flaky_popular 0 1 (by decide) (by decide)]
  rfl

/-- C6, instance: the primary fetch and the first two auxiliary fetches succeed
and the third (popular page 2) is rejected; `top-rated` and `popular` get their
six movies and `newly-added` alone gets the empty list. -/
theorem populateMainGrids_section_isolation_witness :
    (populateMainGrids flakyUpstream 0 homeDom 1 20 6).result = Except.ok () ∧
    sectionRenders (populateMainGrids flakyUpstream 0 homeDom 1 20 6).effects =
      [(js "top-rated", List.replicate 6 (mapTmdbToMovie sampleRaw)),
       (js "popular", List.replicate 6 (mapTmdbToMovie sampleRaw)),
       (js "newly-added", [])] := by
  have h := populateMainGrids_section_isolation flakyUpstream 0 homeDom 1 20 6 _
    (congrArg Run.result flaky_primary)
  refine ⟨h.1, ?_⟩
  rw [h.2, flaky_primary]
  simp only [List.length_singleton, Nat.zero_add, Nat.reduceAdd,
    flaky_popular 2 1 (by decide) (by decide), flaky_newly]
  rfl

/-! ## HTTP client -/

theorem jsIncludes_contentType {J : Type} (res : Response J) :
    jsIncludes (strOr res.contentType []) (js "application/json") = declaresJson res := by
  unfold declaresJson
  cases res.contentType with
  | none => decide
  | some ct =>
    cases ct with
    | nil => decide
    | cons c cs => rfl

/-- C7, as stated, fails: a 500 response that declares JSON and whose body does
not parse makes `apiFetch` fail with the rejection of `json()`, an error that
carries neither the status nor a body; the same body under status 200 makes
`apiFetch` fail although the response is a success. -/
theorem apiFetch_unparsable_body :
    brokenJsonResponse.ok = false ∧
    apiFetch (fun _ => []) none (fun _ => FetchOutcome.response brokenJsonResponse)
      (js "/movies/1") getOptions = Except.error ApiThrown.jsonRejected ∧
    (¬ ∃ body, apiFetch (fun _ => []) none (fun _ => FetchOutcome.response brokenJsonResponse)
      (js "/movies/1") getOptions = Except.error (ApiThrown.requestFailed 500 body)) ∧
    apiFetch (fun _ => []) none
      (fun _ => FetchOutcome.response { brokenJsonResponse with status := 200 })
      (js "/movies/1") getOptions = Except.error ApiThrown.jsonRejected := by
  have h : apiFetch (fun _ => []) none (fun _ => FetchOutcome.response brokenJsonResponse)
      (js "/movies/1") getOptions = Except.error ApiThrown.jsonRejected := by
    simp only [apiFetch, jsIncludes_contentType]
    rfl
  refine ⟨rfl, h, ?_, ?_⟩
  · rintro ⟨body, hb⟩
    rw [h] at hb
    cases hb
  · simp only [apiFetch, jsIncludes_contentType]
    rfl

/-- C7, amended. For a response whose body parses whenever it declares JSON:
when the status is not a success status `apiFetch` fails with its own error
carrying the response's status and, as body, the parsed value if the
content type contains `application/json` and the raw text otherwise; when the
status is a success status `apiFetch` does not fail and returns the parsed
value if the content type contains `application/json` and the raw text
otherwise. -/
theorem apiFetch_response_handling {J : Type} (stringify : J → JsString)
    (token : Option JsString) (fetch : ApiRequest → FetchOutcome J) (path : JsString)
    (options : ApiOptions J) (res : Response J)
    (hres : fetch (apiRequest stringify token path options) = FetchOutcome.response res)
    (hparse : declaresJson res = true → ∃ j, res.json = some j) :
    (res.ok = false → ∃ body,
      apiFetch stringify token fetch path options =
        Except.error (ApiThrown.requestFailed res.status body) ∧
      (declaresJson res = true → ∃ j, res.json = some j ∧ body = ApiBody.parsed j) ∧
      (declaresJson res = false → body = ApiBody.raw res.text)) ∧
    (res.ok = true → ∃ body,
      apiFetch stringify token fetch path options = Except.ok body ∧
      (declaresJson res = true → ∃ j, res.json = some j ∧ body = ApiBody.parsed j) ∧
      (declaresJson res = false → body = ApiBody.raw res.text)) := by
  by_cases hj : declaresJson res = true
  · obtain ⟨j, hjson⟩ := hparse hj
    refine ⟨fun hok => ⟨ApiBody.parsed j, ?_, fun _ => ⟨j, hjson, rfl⟩, ?_⟩,
      fun hok => ⟨ApiBody.parsed j, ?_, fun _ => ⟨j, hjson, rfl⟩, ?_⟩⟩
    · simp [apiFetch, hres, jsIncludes_contentType, hj, hok, hjson]
    · intro hn; rw [hj] at hn; cases hn
    · simp [apiFetch, hres, jsIncludes_contentType, hj, hok, hjson]
    · intro hn; rw [hj] at hn; cases hn
  · have hj2 : declaresJson res = false := by simpa using hj
    refine ⟨fun hok => ⟨ApiBody.raw res.text, ?_, fun h => absurd h hj, fun _ => rfl⟩,
      fun hok => ⟨ApiBody.raw res.text, ?_, fun h => absurd h hj, fun _ => rfl⟩⟩
    · simp [apiFetch, hres, jsIncludes_contentType, hj2, hok]
    · simp [apiFetch, hres, jsIncludes_contentType, hj2, hok]

/-- C7, amended, instance: a 404 response with a JSON body makes `apiFetch`
fail with status 404 and the parsed value as body. -/
theorem apiFetch_response_handling_witness :
    ∃ body,
      apiFetch (fun _ => []) none (fun _ => FetchOutcome.response notFoundResponse)
        (js "/movies/1") getOptions =
        Except.error (ApiThrown.requestFailed 404 body) ∧
      (declaresJson notFoundResponse = true →
        ∃ j, notFoundResponse.json = some j ∧ body = ApiBody.parsed j) ∧
      (declaresJson notFoundResponse = false → body = ApiBody.raw notFoundResponse.text) :=
  (apiFetch_response_handling (fun _ => []) none
    (fun _ => FetchOutcome.response notFoundResponse) (js "/movies/1") getOptions
    notFoundResponse rfl (fun _ => ⟨7, rfl⟩)).1 rfl

/-! ## Double precision -/

theorem spacingExp_small (a : Nat) (h : a < 2 ^ 53) : spacingExp a 1024 0 = 0 := by
  show (if a < 2 ^ (53 + 0) then 0 else spacingExp a 1023 (0 + 1)) = 0
  rw [if_pos (by simpa using h)]

/-- Integers of magnitude at most `2^53` are doubles: rounding leaves them alone. -/
theorem roundDouble_exact (n : Int) (h : n.natAbs ≤ 2 ^ 53) : roundDouble n = n := by
  rcases Nat.lt_or_ge n.natAbs (2 ^ 53) with hlt | hge
  · unfold roundDouble
    simp only [spacingExp_small _ hlt, pow_zero, Nat.div_one, Nat.mod_one, Nat.mul_zero,
      Nat.mul_one]
    have hnot : ¬ ((1 : Nat) < 0 ∨ (0 = 1 ∧ n.natAbs % 2 = 1)) := by omega
    rw [if_neg hnot]
    split_ifs <;> omega
  · have hn : n = 9007199254740992 ∨ n = -9007199254740992 := by
      have : n.natAbs = 9007199254740992 := by
        have h53 : (2 : Nat) ^ 53 = 9007199254740992 := by norm_num
        omega
      omega
    rcases hn with hn | hn <;> subst hn <;> decide

theorem popularLoopDouble_exit (up : Upstream) (fuel tick : Nat) (cur rem : Int)
    (acc : List Movie) (log : List Request) (h : ¬ (rem > 0 ∧ cur ≤ 500)) :
    popularLoopDouble up fuel tick cur rem acc log =
      some { result := Except.ok acc, requests := log } := by
  cases fuel <;> simp only [popularLoopDouble, if_neg h]

theorem popularLoopDouble_zero (up : Upstream) (tick : Nat) (cur rem : Int)
    (acc : List Movie) (log : List Request) (h : rem > 0 ∧ cur ≤ 500) :
    popularLoopDouble up 0 tick cur rem acc log = none := by
  simp only [popularLoopDouble, if_pos h]

theorem popularLoopDouble_error (up : Upstream) (fuel tick : Nat) (cur rem : Int)
    (acc : List Movie) (log : List Request) (h : rem > 0 ∧ cur ≤ 500) (e : Thrown)
    (hf : tmdbFetch up tick (popularRequest cur) = Except.error e) :
    popularLoopDouble up (fuel + 1) tick cur rem acc log =
      some { result := Except.error e, requests := log ++ [popularRequest cur] } := by
  simp only [popularLoopDouble, if_pos h, hf]

theorem popularLoopDouble_short (up : Upstream) (fuel tick : Nat) (cur rem : Int)
    (acc : List Movie) (log : List Request) (h : rem > 0 ∧ cur ≤ 500) (data : TmdbData)
    (hf : tmdbFetch up tick (popularRequest cur) = Except.ok data)
    (hs : (normalizedResults data).length < 20) :
    popularLoopDouble up (fuel + 1) tick cur rem acc log =
      some { result := Except.ok (acc ++ jsSliceTo (normalizedResults data)
               (min rem ((normalizedResults data).length : Int)))
             requests := log ++ [popularRequest cur] } := by
  simp only [popularLoopDouble, if_pos h, hf, if_pos hs]

theorem popularLoopDouble_full (up : Upstream) (fuel tick : Nat) (cur rem : Int)
    (acc : List Movie) (log : List Request) (h : rem > 0 ∧ cur ≤ 500) (data : TmdbData)
    (hf : tmdbFetch up tick (popularRequest cur) = Except.ok data)
    (hs : ¬ (normalizedResults data).length < 20) :
    popularLoopDouble up (fuel + 1) tick cur rem acc log =
      popularLoopDouble up fuel (tick + 1) (roundDouble (cur + 1))
        (roundDouble (rem - min rem ((normalizedResults data).length : Int)))
        (acc ++ jsSliceTo (normalizedResults data) (min rem ((normalizedResults data).length : Int)))
        (log ++ [popularRequest cur]) := by
  simp only [popularLoopDouble, if_pos h, hf, if_neg hs]

/-- Where the numbers are exact (`currentPage >= -2^53`, `remaining <= 2^53`) the
double-precision loop, given `501 - currentPage` iterations or more, finishes
with the run of the exact loop. -/
theorem popularLoopDouble_eq_popularLoop (up : Upstream) (fuel tick : Nat) (cur rem : Int)
    (acc : List Movie) (log : List Request)
    (hcur : -9007199254740992 ≤ cur) (hrem : rem ≤ 9007199254740992)
    (hfuel : (501 - cur).toNat ≤ fuel) :
    popularLoopDouble up fuel tick cur rem acc log =
      some (popularLoop up tick cur rem acc log) := by
  induction fuel generalizing tick cur rem acc log with
  | zero =>
    have h : ¬ (rem > 0 ∧ cur ≤ 500) := by omega
    rw [popularLoopDouble_exit up 0 tick cur rem acc log h, popularLoop_exit up tick cur rem acc log h]
  | succ fuel ih =>
    by_cases h : rem > 0 ∧ cur ≤ 500
    · cases hf : tmdbFetch up tick (popularRequest cur) with
      | error e =>
        rw [popularLoopDouble_error up fuel tick cur rem acc log h e hf,
          popularLoop_error up tick cur rem acc log h e hf]
      | ok data =>
        by_cases hs : (normalizedResults data).length < 20
        · rw [popularLoopDouble_short up fuel tick cur rem acc log h data hf hs,
            popularLoop_short up tick cur rem acc log h data hf hs]
        · rw [popularLoopDouble_full up fuel tick cur rem acc log h data hf hs,
            popularLoop_full up tick cur rem acc log h data hf hs,
            roundDouble_exact (cur + 1) (by norm_num; omega),
            roundDouble_exact (rem - min rem ((normalizedResults data).length : Int))
              (by norm_num; omega)]
          exact ih (tick + 1) (cur + 1) _ _ _ (by omega) (by omega) (by omega)
    · rw [popularLoopDouble_exit up (fuel + 1) tick cur rem acc log h,
        popularLoop_exit up tick cur rem acc log h]

/-- Where the numbers are exact, `tmdbGetPopular` in double precision, given
`501 - page` iterations or more, is `tmdbGetPopular` in exact arithmetic. -/
theorem tmdbGetPopularDouble_eq_tmdbGetPopular (up : Upstream) (fuel tick : Nat)
    (page limit : Int) (hpage : -9007199254740992 ≤ page) (hlimit : limit ≤ 9007199254740992)
    (hfuel : (501 - page).toNat ≤ fuel) :
    tmdbGetPopularDouble up fuel tick page limit = some (tmdbGetPopular up tick page limit) := by
  simp only [tmdbGetPopularDouble, tmdbGetPopular,
    popularLoopDouble_eq_popularLoop up fuel tick page limit [] [] hpage hlimit hfuel]

/-- A finished double-precision run stays the same when more iterations are allowed. -/
theorem popularLoopDouble_mono (up : Upstream) (fuel extra tick : Nat) (cur rem : Int)
    (acc : List Movie) (log : List Request) (run : Run (List Movie))
    (h : popularLoopDouble up fuel tick cur rem acc log = some run) :
    popularLoopDouble up (fuel + extra) tick cur rem acc log = some run := by
  induction fuel generalizing tick cur rem acc log with
  | zero =>
    by_cases hg : rem > 0 ∧ cur ≤ 500
    · rw [popularLoopDouble_zero up tick cur rem acc log hg] at h
      cases h
    · rw [popularLoopDouble_exit up 0 tick cur rem acc log hg] at h
      rw [popularLoopDouble_exit up (0 + extra) tick cur rem acc log hg]
      exact h
  | succ fuel ih =>
    have hadd : fuel + 1 + extra = (fuel + extra) + 1 := by omega
    rw [hadd]
    by_cases hg : rem > 0 ∧ cur ≤ 500
    · cases hf : tmdbFetch up tick (popularRequest cur) with
      | error e =>
        rw [popularLoopDouble_error up fuel tick cur rem acc log hg e hf] at h
        rw [popularLoopDouble_error up (fuel + extra) tick cur rem acc log hg e hf]
        exact h
      | ok data =>
        by_cases hs : (normalizedResults data).length < 20
        · rw [popularLoopDouble_short up fuel tick cur rem acc log hg data hf hs] at h
          rw [popularLoopDouble_short up (fuel + extra) tick cur rem acc log hg data hf hs]
          exact h
        · rw [popularLoopDouble_full up fuel tick cur rem acc log hg data hf hs] at h
          rw [popularLoopDouble_full up (fuel + extra) tick cur rem acc log hg data hf hs]
          exact ih _ _ _ _ _ h
    · rw [popularLoopDouble_exit up (fuel + 1) tick cur rem acc log hg] at h
      rw [popularLoopDouble_exit up (fuel + extra + 1) tick cur rem acc log hg]
      exact h

/-- From a start page of at least `-2^53` the double-precision loop finishes
within `501 - currentPage` iterations, whatever happens to `remaining`: it
requests `k` successive pages, none beyond page 500, and fails only when a
fetch fails. -/
theorem popularLoopDouble_spec (up : Upstream) (fuel tick : Nat) (cur rem : Int)
    (acc : List Movie) (log : List Request)
    (hcur : -9007199254740992 ≤ cur) (hfuel : (501 - cur).toNat ≤ fuel) :
    ∃ run, ∃ k : Nat,
      popularLoopDouble up fuel tick cur rem acc log = some run ∧
      run.requests = log ++ pageRequests k cur ∧
      (k : Int) ≤ max 0 (501 - cur) ∧
      (∀ e, run.result = Except.error e → ∃ t r, tmdbFetch up t r = Except.error e) := by
  induction fuel generalizing tick cur rem acc log with
  | zero =>
    have h : ¬ (rem > 0 ∧ cur ≤ 500) := by omega
    refine ⟨_, 0, popularLoopDouble_exit up 0 tick cur rem acc log h, by simp [pageRequests],
      by omega, ?_⟩
    intro e he
    cases he
  | succ fuel ih =>
    by_cases h : rem > 0 ∧ cur ≤ 500
    · cases hf : tmdbFetch up tick (popularRequest cur) with
      | error e =>
        refine ⟨_, 1, popularLoopDouble_error up fuel tick cur rem acc log h e hf, rfl,
          by omega, ?_⟩
        intro e2 he
        simp only [Except.error.injEq] at he
        subst he
        exact ⟨_, _, hf⟩
      | ok data =>
        by_cases hs : (normalizedResults data).length < 20
        · refine ⟨_, 1, popularLoopDouble_short up fuel tick cur rem acc log h data hf hs, rfl,
            by omega, ?_⟩
          intro e he
          cases he
        · obtain ⟨run, k, hrun, hreq, hk, herr⟩ := ih (tick + 1) (cur + 1)
            (roundDouble (rem - min rem ((normalizedResults data).length : Int)))
            (acc ++ jsSliceTo (normalizedResults data)
              (min rem ((normalizedResults data).length : Int)))
            (log ++ [popularRequest cur]) (by omega) (by omega)
          refine ⟨run, k + 1, ?_, ?_, by omega, herr⟩
          · rw [popularLoopDouble_full up fuel tick cur rem acc log h data hf hs,
              roundDouble_exact (cur + 1) (by norm_num; omega)]
            exact hrun
          · rw [hreq]; simp [pageRequests]
    · refine ⟨_, 0, popularLoopDouble_exit up (fuel + 1) tick cur rem acc log h,
        by simp [pageRequests], by omega, ?_⟩
      intro e he
      cases he

/-- At page `-2^54` with `2^60` movies still wanted and full pages of 20, one
iteration leaves both loop variables where they were, so no number of
iterations finishes the loop. -/
theorem popularLoopDouble_stuck (fuel tick : Nat) (acc : List Movie) (log : List Request) :
    popularLoopDouble (upstreamOf 20) fuel tick (-18014398509481984) 1152921504606846976
      acc log = none := by
  induction fuel generalizing tick acc log with
  | zero => exact popularLoopDouble_zero _ _ _ _ _ _ (by decide)
  | succ fuel ih =>
    have hlen : (normalizedResults (pageOf 20)).length = 20 := by
      simp [normalizedResults, pageOf]
    rw [popularLoopDouble_full (upstreamOf 20) fuel tick _ _ acc log (by decide) (pageOf 20)
      (tmdbFetch_upstreamOf 20 _ _) (by omega), hlen]
    have h1 : roundDouble (-18014398509481984 + 1) = -18014398509481984 := by decide
    have h2 : roundDouble (1152921504606846976 - min 1152921504606846976 ((20 : Nat) : Int)) =
        1152921504606846976 := by decide
    rw [h1, h2]
    exact ih _ _ _

/-- C3, as stated, fails: from the start page `-2^54` (an integer, and a double)
with limit `2^60` and an upstream of full pages, `currentPage++` and
`remaining -= 20` both round back to the value they started from, and
`tmdbGetPopular` finishes within no number of iterations. -/
theorem tmdbGetPopularDouble_never_returns :
    roundDouble (-18014398509481984 + 1) = -18014398509481984 ∧
    roundDouble (1152921504606846976 - 20) = 1152921504606846976 ∧
    ¬ ∃ fuel run,
      tmdbGetPopularDouble (upstreamOf 20) fuel 0 (-18014398509481984) 1152921504606846976 =
        some run := by
  refine ⟨by decide, by decide, ?_⟩
  rintro ⟨fuel, run, h⟩
  simp only [tmdbGetPopularDouble, popularLoopDouble_stuck] at h
  cases h

/-- C3, amended. For every integer start page of at least `-2^53`, every limit
and every upstream, `tmdbGetPopular` in double precision finishes within
`501 - page` iterations of its loop (with the same run however many more are
allowed); every request of that run is for a page number of at most 500, there
are at most `max(0, 501 - page)` of them, and when every fetch succeeds the run
returns a result. -/
theorem tmdbGetPopularDouble_request_ceiling (up : Upstream) (tick : Nat) (page limit : Int)
    (hpage : -9007199254740992 ≤ page) :
    ∃ run,
      (∀ fuel, (501 - page).toNat ≤ fuel →
        tmdbGetPopularDouble up fuel tick page limit = some run) ∧
      (∀ r ∈ run.requests, ∃ q : Int, q ≤ 500 ∧ r = popularRequest q) ∧
      (run.requests.length : Int) ≤ max 0 (501 - page) ∧
      ((∀ t r, ∃ d, tmdbFetch up t r = Except.ok d) → ∃ res, run.result = Except.ok res) := by
  obtain ⟨run0, k, hrun, hreq, hk, herr⟩ :=
    popularLoopDouble_spec up (501 - page).toNat tick page limit [] [] hpage (le_refl _)
  refine ⟨{ result :=
              match run0.result with
              | Except.ok movies =>
                Except.ok [("movies", Val.arr movies), ("page", Val.num page),
                           ("total", Val.num (movies.length : Int))]
              | Except.error e => Except.error e
            requests := run0.requests }, ?_, ?_, ?_, ?_⟩
  · intro fuel hfuel
    obtain ⟨extra, hextra⟩ := Nat.exists_eq_add_of_le hfuel
    have := popularLoopDouble_mono up (501 - page).toNat extra tick page limit [] [] run0 hrun
    rw [← hextra] at this
    simp only [tmdbGetPopularDouble, this]
  · intro r hr
    simp only [hreq, List.nil_append] at hr
    obtain ⟨i, hi, hri⟩ := pageRequests_mem k page r hr
    exact ⟨page + (i : Int), by omega, hri⟩
  · simp only [hreq, List.nil_append, pageRequests_length]
    exact hk
  · intro hall
    cases hres : run0.result with
    | ok movies => exact ⟨_, rfl⟩
    | error e =>
      obtain ⟨t, r, hf⟩ := herr e hres
      obtain ⟨d, hd⟩ := hall t r
      rw [hd] at hf
      cases hf

/-- C3, amended, instance: from page 499, with limit `2^60` (which subtracting
25 does not change) and pages that always carry 25 results, the call finishes
within 2 iterations, after at most 2 requests, and returns. -/
theorem tmdbGetPopularDouble_request_ceiling_witness :
    ∃ run,
      (∀ fuel, 2 ≤ fuel →
        tmdbGetPopularDouble (upstreamOf 25) fuel 0 499 1152921504606846976 = some run) ∧
      (run.requests.length : Int) ≤ 2 ∧
      ∃ res, run.result = Except.ok res := by
  obtain ⟨run, h1, _, h3, h4⟩ := tmdbGetPopularDouble_request_ceiling (upstreamOf 25) 0 499
    1152921504606846976 (by decide)
  exact ⟨run, fun fuel hf => h1 fuel hf, h3,
    h4 (fun t r => ⟨pageOf 25, tmdbFetch_upstreamOf 25 t r⟩)⟩

end MovieApi
